import Mathlib

/-
Verification of the myBERT/train1.py classifier pipeline: a shallow
embedding of its data ingestion, label normalization, model forward pass,
training loop, and evaluation procedure, with theorems settling the
specification's claims about them.
-/

namespace IWC

/-! ## File ingestion (convert_to_text_label, train1.py lines 61-70)

Lines are modelled as lists of characters (as produced by readlines,
newline included).  Python's `line.split('\t')` keeps empty fields and
never returns an empty list; `int(s)` strips surrounding whitespace and
parses an optionally signed digit string, failing otherwise.  A Python
exception (IndexError on a missing field, ValueError on a bad integer)
aborts the whole call, so the function is embedded in `Except`. -/

/-- Python str.split on the tab character: no collapsing of empty fields,
and the result is never the empty list. -/
def splitOnTab : List Char → List (List Char)
  | [] => [[]]
  | c :: cs =>
    if c = '\t' then [] :: splitOnTab cs
    else
      match splitOnTab cs with
      | [] => [[c]]
      | f :: rest => (c :: f) :: rest

/-- Whitespace as stripped by Python int(). -/
def isPyWs (c : Char) : Bool :=
  c = ' ' || c = '\t' || c = '\n' || c = '\r'

def trimWs (s : List Char) : List Char :=
  ((s.dropWhile isPyWs).reverse.dropWhile isPyWs).reverse

/-- Value of a nonempty all-digit string, none otherwise. -/
def parseDigits (s : List Char) : Option ℕ :=
  if s = [] then none
  else if s.all (fun c => c.isDigit) then
    some (s.foldl (fun acc c => 10 * acc + (c.toNat - '0'.toNat)) 0)
  else none

/-- Python int(): strip whitespace, optional sign, digits. -/
def pyInt (s : List Char) : Option ℤ :=
  match trimWs s with
  | '-' :: rest => (parseDigits rest).map (fun n => -(n : ℤ))
  | '+' :: rest => (parseDigits rest).map (fun n => (n : ℤ))
  | t => (parseDigits t).map (fun n => (n : ℤ))

/-- One loop iteration of convert_to_text_label: split the line on tabs,
take field 0 as the text and int(field 1) as the label; a missing second
field is an IndexError and a bad integer a ValueError, both fatal. -/
def parseLine (line : List Char) : Except String (List Char × ℤ) :=
  match splitOnTab line with
  | [] => Except.error "IndexError"
  | _ :: [] => Except.error "IndexError"
  | t :: f :: _ =>
    match pyInt f with
    | none => Except.error "ValueError"
    | some v => Except.ok (t, v)

/-- convert_to_text_label: accumulate (texts, labels) over the lines in
file order; any per-line failure aborts the whole call with no partial
result. -/
def convert_to_text_label : List (List Char) → Except String (List (List Char) × List ℤ)
  | [] => Except.ok ([], [])
  | l :: ls =>
    match parseLine l with
    | Except.error e => Except.error e
    | Except.ok (t, v) =>
      match convert_to_text_label ls with
      | Except.error e => Except.error e
      | Except.ok (ts, vs) => Except.ok (t :: ts, v :: vs)

/-- Field 0 of a line: the portion before the first tab. -/
def textField (l : List Char) : List Char :=
  (splitOnTab l).headD []

/-- Field 1 of a line: between the first and second tab (or the end). -/
def labelField (l : List Char) : List Char :=
  (splitOnTab l).getD 1 []

/-- A line is well formed when it has at least two tab-separated fields
and its second field parses as an integer. -/
def wellFormedLine (l : List Char) : Prop :=
  2 ≤ (splitOnTab l).length ∧ (pyInt (labelField l)).isSome

instance (l : List Char) : Decidable (wellFormedLine l) := by
  unfold wellFormedLine
  infer_instance

/-! ## Label normalization and ingestion (train1.py lines 72-81 and 134-151) -/

/-- Line 81 / line 150: `[int(ids) - 2 for ids in labels]` (ids is already
an integer, so int(ids) is the identity). -/
def normalizeLabels (labels : List ℤ) : List ℤ :=
  labels.map (fun i => i - 2)

/-- Lines 72-81: read train.txt and dev.txt, concatenate, then apply the
offset once to the combined label list. -/
def ingest_train (trainLines devLines : List (List Char)) :
    Except String (List (List Char) × List ℤ) :=
  match convert_to_text_label trainLines with
  | Except.error e => Except.error e
  | Except.ok (t1, l1) =>
    match convert_to_text_label devLines with
    | Except.error e => Except.error e
    | Except.ok (t2, l2) => Except.ok (t1 ++ t2, normalizeLabels (l1 ++ l2))

/-- Lines 134-151: read test.txt and apply the offset once. -/
def ingest_test (testLines : List (List Char)) :
    Except String (List (List Char) × List ℤ) :=
  match convert_to_text_label testLines with
  | Except.error e => Except.error e
  | Except.ok (t, l) => Except.ok (t, normalizeLabels l)

/-! ## The sequence classifier (BERTBiLSTM, train1.py lines 7-22)

Tensors are nested lists of rationals.  The pretrained encoder and the
recurrent layer are opaque collaborators, carried as function-valued
parameters of the model: `bertF` maps (input_ids, attention_mask), each a
batch of token rows, to per-token hidden states of shape (B, L, H);
`lstmHn` maps that sequence output to the LSTM final hidden states h_n of
shape (2·num_layers, B, Hr) — for the single bidirectional layer of line
11 this is [forward final, backward final].  The linear head (line 13) is
a weight matrix of num_labels rows (10, per the construction on line 105)
over vectors of size 2·Hr, plus a bias.  Dropout (line 12) multiplies by
a random mask in training mode and is the identity in evaluation mode. -/

inductive Mode
  | train
  | eval
deriving DecidableEq

structure BERTBiLSTM where
  bertF : List (List ℤ) → List (List ℤ) → List (List (List ℚ))
  lstmHn : List (List (List ℚ)) → List (List (List ℚ))
  w : List (List ℚ)
  b : List ℚ
  mode : Mode

/-- model.eval() — only the mode flag changes. -/
def setEval (m : BERTBiLSTM) : BERTBiLSTM :=
  { m with mode := Mode.eval }

/-- model.train() — only the mode flag changes. -/
def setTrain (m : BERTBiLSTM) : BERTBiLSTM :=
  { m with mode := Mode.train }

/-- Python negative indexing: l[-k]. -/
def negIdx (l : List α) (k : ℕ) : Option α :=
  l.get? (l.length - k)

def dotProd (xs ys : List ℚ) : ℚ :=
  (List.zipWith (· * ·) xs ys).sum

/-- nn.Linear applied to one row: one output per weight row. -/
def linearRow (w : List (List ℚ)) (b : List ℚ) (x : List ℚ) : List ℚ :=
  List.zipWith (fun wr bi => dotProd wr x + bi) w b

/-- Lines 16-19: run the encoder, take the LSTM final hidden states, and
concatenate h_n[-2] (forward direction) with h_n[-1] (backward direction)
along dim 1, i.e. row by row. -/
def pooledRep (m : BERTBiLSTM) (ids masks : List (List ℤ)) : List (List ℚ) :=
  let hn := m.lstmHn (m.bertF ids masks)
  List.zipWith (· ++ ·) ((negIdx hn 2).getD []) ((negIdx hn 1).getD [])

/-- Line 20: dropout, a no-op in evaluation mode and an elementwise
multiplication by a sampled mask in training mode. -/
def dropoutRows (mode : Mode) (rng : List (List ℚ)) (rows : List (List ℚ)) :
    List (List ℚ) :=
  match mode with
  | Mode.eval => rows
  | Mode.train => List.zipWith (fun mr r => List.zipWith (· * ·) mr r) rng rows

/-- Lines 15-22: the full forward pass, ending with the linear head and no
softmax. -/
def forwardPass (m : BERTBiLSTM) (rng : List (List ℚ)) (ids masks : List (List ℤ)) :
    List (List ℚ) :=
  (dropoutRows m.mode rng (pooledRep m ids masks)).map (linearRow m.w m.b)

/-! ## Evaluation procedure (evaluate, train1.py lines 111-131) -/

/-- torch.max(outputs, dim=1) indices: index of the first maximal entry. -/
def argmaxAux : List ℚ → ℕ → ℕ → ℚ → ℕ
  | [], _, bi, _ => bi
  | x :: xs, i, bi, bv =>
    if bv < x then argmaxAux xs (i + 1) i x else argmaxAux xs (i + 1) bi bv

def argmaxQ : List ℚ → ℤ
  | [] => 0
  | x :: xs => (argmaxAux xs 1 0 x : ℤ)

structure Batch where
  ids : List (List ℤ)
  masks : List (List ℤ)
  labels : List ℤ

/-- Lines 116-125: the no_grad loop — for each batch in stream order,
extend y_true with the labels and y_pred with the argmax predictions.
Gradients are never formed, so the loop is a pure fold over the stream. -/
def evalCollect (m : BERTBiLSTM) : List Batch → List ℤ × List ℤ
  | [] => ([], [])
  | bt :: rest =>
    let preds := (forwardPass m [] bt.ids bt.masks).map argmaxQ
    let (yt, yp) := evalCollect m rest
    (bt.labels ++ yt, preds ++ yp)

/-- The labels/predictions the evaluation procedure collects for a given
model and stream (the model is first put in evaluation mode, line 113). -/
def evalPredictions (m : BERTBiLSTM) (stream : List Batch) : List ℤ × List ℤ :=
  evalCollect (setEval m) stream

def insertSorted (x : ℤ) : List ℤ → List ℤ
  | [] => [x]
  | y :: ys => if x ≤ y then x :: y :: ys else y :: insertSorted x ys

def sortInts (l : List ℤ) : List ℤ :=
  l.foldr insertSorted []

/-- The sorted distinct labels occurring in y_true and y_pred together —
what sklearn uses as the implicit labels argument. -/
def distinctLabels (yt yp : List ℤ) : List ℤ :=
  sortInts ((yt ++ yp).dedup)

/-- Line 127: the ten fixed fraud-category names. -/
def target_names : List String :=
  ["婚恋交友", "假冒身份", "钓鱼网站", "冒充公检法", "平台诈骗",
   "招聘兼职", "杀猪盘", "博彩赌博", "信贷理财", "刷单诈骗"]

/-- sklearn's classification_report with target_names: when the number of
distinct labels across y_true and y_pred differs from the number of
target names it raises ValueError; otherwise it pairs the names with the
sorted labels and reports per-class rows (here: the support counts). -/
def classification_report (yt yp : List ℤ) (names : List String) :
    Except String (List (String × ℕ)) :=
  let labels := distinctLabels yt yp
  if labels.length = names.length then
    Except.ok (names.zip (labels.map (fun c => yt.countP (fun x => x == c))))
  else
    Except.error "ValueError: Number of classes does not match size of target_names"

/-- sklearn's confusion_matrix: rows are true labels, columns predicted,
over the sorted distinct labels. -/
def confusion_matrix (yt yp : List ℤ) : List (List ℕ) :=
  let labels := distinctLabels yt yp
  labels.map (fun i =>
    labels.map (fun j =>
      (yt.zip yp).countP (fun p => p.1 == i && p.2 == j)))

/-- Lines 111-131: evaluate.  It mutates the model only by model.eval(),
collects labels and predictions without gradients, prints the
classification report (which can raise) and the confusion matrix, and
falls off the end of the function body — its Python return value is None.
The result is (model after the call, report-and-matrix output or the
raised error, return value). -/
def evaluate (m : BERTBiLSTM) (stream : List Batch) :
    BERTBiLSTM × Except String (List (String × ℕ) × List (List ℕ)) × Option (ℚ × ℚ) :=
  let p := evalPredictions m stream
  (setEval m,
   match classification_report p.1 p.2 target_names with
   | Except.error e => Except.error e
   | Except.ok rep => Except.ok (rep, confusion_matrix p.1 p.2),
   none)

/-- Line 47: `val_loss, val_f1 = evaluate(model, val_dataloader)` — tuple
unpacking of evaluate's return value, a TypeError when that value is
None. -/
def val_unpack (m : BERTBiLSTM) (s : List Batch) : Except String (ℚ × ℚ) :=
  match (evaluate m s).2.2 with
  | some p => Except.ok p
  | none => Except.error "TypeError: cannot unpack non-iterable NoneType object"

/-! ## Samplers and dataloaders (train1.py lines 100-101, 156-158)

A RandomSampler draws a fresh random permutation of the dataset indices;
the permutation is the sampler's source of randomness, made explicit as a
parameter.  A SequentialSampler yields the dataset in order. -/

inductive SamplerKind
  | randomS
  | sequentialS

/-- Line 157: the sampler used to build the test dataloader. -/
def test_sampler : SamplerKind :=
  SamplerKind.randomS

/-- The order in which a dataloader built on the given sampler yields the
dataset, for a given random permutation of indices. -/
def loaderOrder (s : SamplerKind) (perm : List ℕ) (data : List α) : List α :=
  match s with
  | SamplerKind.sequentialS => data
  | SamplerKind.randomS => perm.filterMap (fun i => data.get? i)

/-! ## Training loop (train, train1.py lines 24-54)

The optimizer is AdamW at a fixed learning rate of 5e-5; its parameter
update is an opaque collaborator `upd`.  Each batch iteration performs,
in order: zero_grad, forward, cross-entropy loss, backward, and exactly
one optimizer step; the loop records that sequence in an event trace.
The parameter-update count is the number of step events in the trace. -/

def optimizer_lr : ℚ := 5 / 100000

inductive TrainEvent
  | zeroGradE
  | forwardE
  | lossE
  | backwardE
  | stepE
deriving DecidableEq

/-- The event sequence of one iteration of the inner loop (lines 37-41). -/
def batchEvents : List TrainEvent :=
  [TrainEvent.zeroGradE, TrainEvent.forwardE, TrainEvent.lossE,
   TrainEvent.backwardE, TrainEvent.stepE]

structure TrainState where
  model : BERTBiLSTM
  trace : List TrainEvent

/-- Lines 33-44: process one batch — one optimizer step, applied to the
current parameters. -/
def batchStep (upd : BERTBiLSTM → Batch → BERTBiLSTM) (st : TrainState) (bt : Batch) :
    TrainState :=
  { model := upd st.model bt, trace := st.trace ++ batchEvents }

/-- Lines 28-52, one epoch: model.train(), then the batches in loader
order. -/
def trainEpoch (upd : BERTBiLSTM → Batch → BERTBiLSTM) (stream : List Batch)
    (st : TrainState) : TrainState :=
  stream.foldl (batchStep upd) { st with model := setTrain st.model }

/-- The `for epoch in range(epochs)` loop. -/
def trainLoop (upd : BERTBiLSTM → Batch → BERTBiLSTM) (stream : List Batch) :
    ℕ → TrainState → TrainState
  | 0, st => st
  | n + 1, st => trainLoop upd stream n (trainEpoch upd stream st)

/-- train(model, train_dataloader, epochs) with evaluation disabled. -/
def train (upd : BERTBiLSTM → Batch → BERTBiLSTM) (m : BERTBiLSTM)
    (stream : List Batch) (epochs : ℕ) : TrainState :=
  trainLoop upd stream epochs { model := m, trace := [] }

/-- Number of optimizer steps recorded in a trace. -/
def stepCount (tr : List TrainEvent) : ℕ :=
  tr.countP (fun e => e == TrainEvent.stepE)

/-! ## Concrete instances used by witnesses -/

/-- A tiny concrete model: encoder hidden size 1, LSTM hidden size 1, the
ten-way linear head over vectors of size 2. -/
def demoModel : BERTBiLSTM :=
  { bertF := fun ids _ => ids.map (fun r => r.map (fun _ => [(1 : ℚ)]))
    lstmHn := fun s => [s.map (fun _ => [(0 : ℚ)]), s.map (fun _ => [(0 : ℚ)])]
    w := List.replicate 10 [(1 : ℚ), (1 : ℚ)]
    b := List.replicate 10 0
    mode := Mode.eval }

def demoBatch : Batch :=
  { ids := [[(0 : ℤ)]], masks := [[(1 : ℤ)]], labels := [(0 : ℤ)] }

/-! ## Theorems -/

theorem splitOnTab_ne_nil (l : List Char) : splitOnTab l ≠ [] := by
  induction l with
  | nil => simp [splitOnTab]
  | cons c cs ih =>
    simp only [splitOnTab]
    split
    · simp
    · cases h : splitOnTab cs with
      | nil => simp
      | cons f rest => simp

theorem splitOnTab_of_no_tab (l : List Char) (h : '\t' ∉ l) : splitOnTab l = [l] := by
  induction l with
  | nil => rfl
  | cons c cs ih =>
    have hc : ¬ c = '\t' := fun hcc => h (hcc ▸ List.mem_cons_self c cs)
    have hcs : '\t' ∉ cs := fun hm => h (List.mem_cons_of_mem c hm)
    simp only [splitOnTab, if_neg hc, ih hcs]

theorem splitOnTab_headD (l : List Char) :
    (splitOnTab l).headD [] = l.takeWhile (fun c => c != '\t') := by
  induction l with
  | nil => rfl
  | cons c cs ih =>
    by_cases hc : c = '\t'
    · subst hc
      simp [splitOnTab, List.takeWhile]
    · simp only [splitOnTab, if_neg hc]
      cases h : splitOnTab cs with
      | nil => exact absurd h (splitOnTab_ne_nil cs)
      | cons f rest =>
        have hf : f = cs.takeWhile (fun c => c != '\t') := by
          simpa [h] using ih
        have hb : (c != '\t') = true := by simp [hc]
        simp [List.takeWhile, hb, hf]

theorem setEval_setEval (m : BERTBiLSTM) : setEval (setEval m) = setEval m := rfl

theorem parseLine_of_wellFormed (l : List Char) (h : wellFormedLine l) :
    parseLine l = Except.ok (textField l, (pyInt (labelField l)).getD 0) := by
  obtain ⟨hlen, hsome⟩ := h
  cases hs : splitOnTab l with
  | nil => exact absurd hs (splitOnTab_ne_nil l)
  | cons t rest =>
    cases rest with
    | nil => rw [hs] at hlen; simp at hlen
    | cons f rest2 =>
      have hlf : labelField l = f := by simp [labelField, hs]
      rw [hlf] at hsome
      cases hv : pyInt f with
      | none => rw [hv] at hsome; simp at hsome
      | some v =>
        simp [parseLine, hs, hv, textField, labelField]

/-- Claim C1: the spec says the training-time variant of the evaluation
procedure returns epoch-level (loss, weighted-F1) averages that the
caller can unpack, but the code's evaluate function never returns a
value: for every model and stream its Python return value is None, so
the unpacking `val_loss, val_f1 = evaluate(model, val_dataloader)` on
line 47 raises a TypeError whenever validation is enabled. -/
theorem c1_evaluate_returns_none (m : BERTBiLSTM) (s : List Batch) :
    (evaluate m s).2.2 = none ∧
      val_unpack m s =
        Except.error "TypeError: cannot unpack non-iterable NoneType object" :=
  ⟨rfl, rfl⟩

/-- Claim C2 counterexample: the test dataloader is built on a
RandomSampler (line 157), so there is a random draw — here the
permutation [1, 0] of the two indices — under which the final test
evaluation consumes the test examples in an order different from the
dataset order, refuting "no reordering". -/
theorem c2_counterexample :
    List.Perm [1, 0] (List.range 2) ∧
      loaderOrder test_sampler [1, 0] [(10 : ℤ), 20] = [20, 10] ∧
      loaderOrder test_sampler [1, 0] [(10 : ℤ), 20] ≠ [10, 20] := by
  refine ⟨by decide, by decide, by decide⟩

/-- Claim C2 (amended): the evaluation loop itself processes every batch
of the stream it is handed exactly once, in stream order — the collected
true labels and predictions are exactly the in-order concatenations over
the stream — but the order in which the test dataloader yields those
batches is a random permutation, not dataset order. -/
theorem c2_eval_stream_order (m : BERTBiLSTM) (stream : List Batch) :
    (evalCollect m stream).1 = stream.flatMap (fun bt => bt.labels) ∧
      (evalCollect m stream).2 =
        stream.flatMap (fun bt => (forwardPass m [] bt.ids bt.masks).map argmaxQ) := by
  induction stream with
  | nil => exact ⟨rfl, rfl⟩
  | cons bt rest ih =>
    refine ⟨?_, ?_⟩ <;> simp [evalCollect, ih.1, ih.2]

/-- Claim C6: running the evaluation procedure twice over the same frozen
model and the same stream yields identical predictions and an identical
report/confusion-matrix output, because the only model mutation is the
switch to evaluation mode, which is idempotent. -/
theorem c6_evaluate_idempotent (m : BERTBiLSTM) (s : List Batch) :
    evalPredictions ((evaluate m s).1) s = evalPredictions m s ∧
      (evaluate ((evaluate m s).1) s).2 = (evaluate m s).2 :=
  ⟨rfl, rfl⟩

/-- Claim C9: the evaluation procedure never mutates the classifier's
parameters — the encoder, the recurrent aggregator, and the linear head's
weight and bias are all unchanged by a call to evaluate; only the mode
flag is touched. -/
theorem c9_evaluate_preserves_params (m : BERTBiLSTM) (s : List Batch) :
    ((evaluate m s).1).bertF = m.bertF ∧
      ((evaluate m s).1).lstmHn = m.lstmHn ∧
      ((evaluate m s).1).w = m.w ∧
      ((evaluate m s).1).b = m.b :=
  ⟨rfl, rfl, rfl, rfl⟩

/-- Claim C7: if any input line lacks a tab-separated label field, the
whole ingestion call fails with an error — no partial-line recovery, no
skipping or repairing: convert_to_text_label never returns a result on
such input. -/
theorem c7_missing_tab_fatal (lines : List (List Char))
    (h : ∃ l ∈ lines, '\t' ∉ l) :
    ∃ e, convert_to_text_label lines = Except.error e := by
  induction lines with
  | nil => simp at h
  | cons l ls ih =>
    obtain ⟨l0, hmem, hnt⟩ := h
    rcases List.mem_cons.mp hmem with hl | hl
    · subst hl
      refine ⟨"IndexError", ?_⟩
      simp [convert_to_text_label, parseLine, splitOnTab_of_no_tab l0 hnt]
    · cases hp : parseLine l with
      | error e => exact ⟨e, by simp [convert_to_text_label, hp]⟩
      | ok tv =>
        obtain ⟨e, he⟩ := ih ⟨l0, hl, hnt⟩
        exact ⟨e, by simp [convert_to_text_label, hp, he]⟩

/-- Claim C7 witness: a concrete two-line file whose second line has no
tab aborts ingestion with an error. -/
theorem c7_missing_tab_fatal_witness :
    (∃ l ∈ [['a', '\t', '3'], ['b', '4']], '\t' ∉ l) ∧
      ∃ e, convert_to_text_label [['a', '\t', '3'], ['b', '4']] = Except.error e :=
  ⟨by decide, c7_missing_tab_fatal [['a', '\t', '3'], ['b', '4']] (by decide)⟩

/-- Claim C10: on a well-formed file, ingestion returns two lists of
equal length pairing each line's text with its label in file order; the
text of a line is exactly the portion before its first tab, and the
label is parsed from the second field alone, so any further
tab-separated fields are silently ignored. -/
theorem c10_wellformed_ingestion (lines : List (List Char))
    (h : ∀ l ∈ lines, wellFormedLine l) :
    convert_to_text_label lines =
        Except.ok (lines.map textField,
          lines.map (fun l => (pyInt (labelField l)).getD 0)) ∧
      (lines.map textField).length =
        (lines.map (fun l => (pyInt (labelField l)).getD 0)).length ∧
      lines.map textField = lines.map (fun l => l.takeWhile (fun c => c != '\t')) := by
  refine ⟨?_, by simp, ?_⟩
  · induction lines with
    | nil => rfl
    | cons l ls ih =>
      have hl := parseLine_of_wellFormed l (h l (List.mem_cons_self l ls))
      have hls := ih (fun x hx => h x (List.mem_cons_of_mem l hx))
      simp [convert_to_text_label, hl, hls]
  · apply List.map_congr_left
    intro a _
    simpa [textField] using splitOnTab_headD a

/-- Claim C10 witness: a concrete file whose second line carries an extra
third field is ingested in order, pairing texts with labels, with the
extra field ignored. -/
theorem c10_wellformed_ingestion_witness :
    (∀ l ∈ [['a', '\t', '3'], ['b', '\t', '4', '\t', 'x']], wellFormedLine l) ∧
      (convert_to_text_label [['a', '\t', '3'], ['b', '\t', '4', '\t', 'x']] =
          Except.ok ([['a', '\t', '3'], ['b', '\t', '4', '\t', 'x']].map textField,
            [['a', '\t', '3'], ['b', '\t', '4', '\t', 'x']].map
              (fun l => (pyInt (labelField l)).getD 0)) ∧
        (([['a', '\t', '3'], ['b', '\t', '4', '\t', 'x']].map textField).length =
          ([['a', '\t', '3'], ['b', '\t', '4', '\t', 'x']].map
            (fun l => (pyInt (labelField l)).getD 0)).length) ∧
        [['a', '\t', '3'], ['b', '\t', '4', '\t', 'x']].map textField =
          [['a', '\t', '3'], ['b', '\t', '4', '\t', 'x']].map
            (fun l => l.takeWhile (fun c => c != '\t'))) :=
  ⟨by decide,
   c10_wellformed_ingestion [['a', '\t', '3'], ['b', '\t', '4', '\t', 'x']] (by decide)⟩

theorem map_sub_add_cancel (l : List ℤ) :
    (l.map (fun i => i - 2)).map (fun n => n + 2) = l := by
  rw [List.map_map]
  have h : ((fun n : ℤ => n + 2) ∘ fun i : ℤ => i - 2) = id := by
    funext x
    simp
  rw [h, List.map_id]

/-- Claim C3 counterexample: the code never checks the raw label range,
so a well-formed test file whose single line carries the raw label 0 is
ingested without error and yields the normalized value -2, which does not
lie in [0, 10). -/
theorem c3_counterexample :
    ingest_test [['a', '\t', '0']] = Except.ok ([['a']], [(-2 : ℤ)]) ∧
      ¬((0 : ℤ) ≤ -2 ∧ (-2 : ℤ) < 10) := by
  refine ⟨rfl, by decide⟩

/-- Claim C3 (amended): label normalization is the pure, deterministic,
invertible offset normalized = raw - 2 (raw = normalized + 2), applied
exactly once at ingestion and consistently to the combined train+dev
labels and to the test labels; the normalized values lie in [0, 10)
whenever every raw label lies in [2, 12), a range the code itself never
validates. -/
theorem c3_normalization (tl dl el ts1 ts2 ts3 : List (List Char))
    (l1 l2 l3 : List ℤ)
    (h1 : convert_to_text_label tl = Except.ok (ts1, l1))
    (h2 : convert_to_text_label dl = Except.ok (ts2, l2))
    (h3 : convert_to_text_label el = Except.ok (ts3, l3)) :
    ingest_train tl dl = Except.ok (ts1 ++ ts2, (l1 ++ l2).map (fun i => i - 2)) ∧
      ingest_test el = Except.ok (ts3, l3.map (fun i => i - 2)) ∧
      ((l1 ++ l2).map (fun i => i - 2)).map (fun n => n + 2) = l1 ++ l2 ∧
      (l3.map (fun i => i - 2)).map (fun n => n + 2) = l3 ∧
      ((∀ r ∈ l1 ++ l2, 2 ≤ r ∧ r < 12) →
        ∀ n ∈ (l1 ++ l2).map (fun i => i - 2), 0 ≤ n ∧ n < 10) ∧
      ((∀ r ∈ l3, 2 ≤ r ∧ r < 12) →
        ∀ n ∈ l3.map (fun i => i - 2), 0 ≤ n ∧ n < 10) := by
  refine ⟨by simp [ingest_train, h1, h2, normalizeLabels],
          by simp [ingest_test, h3, normalizeLabels], ?_, ?_, ?_, ?_⟩
  · exact map_sub_add_cancel (l1 ++ l2)
  · exact map_sub_add_cancel l3
  · intro hr n hn
    obtain ⟨r, hrm, hre⟩ := List.mem_map.mp hn
    obtain ⟨hr1, hr2⟩ := hr r hrm
    omega
  · intro hr n hn
    obtain ⟨r, hrm, hre⟩ := List.mem_map.mp hn
    obtain ⟨hr1, hr2⟩ := hr r hrm
    omega

/-- Claim C3 witness: concrete one-line train, dev and test files with
raw labels 2, 5 and 11 are ingested with the offset applied once, the
offset is inverted by adding 2, and all normalized values land in
[0, 10). -/
theorem c3_normalization_witness :
    convert_to_text_label [['a', '\t', '2']] = Except.ok ([['a']], [(2 : ℤ)]) ∧
      convert_to_text_label [['b', '\t', '5']] = Except.ok ([['b']], [(5 : ℤ)]) ∧
      convert_to_text_label [['c', '\t', '1', '1']] = Except.ok ([['c']], [(11 : ℤ)]) ∧
      (ingest_train [['a', '\t', '2']] [['b', '\t', '5']] =
          Except.ok ([['a']] ++ [['b']], ([(2 : ℤ)] ++ [5]).map (fun i => i - 2)) ∧
        ingest_test [['c', '\t', '1', '1']] =
          Except.ok ([['c']], [(11 : ℤ)].map (fun i => i - 2)) ∧
        (([(2 : ℤ)] ++ [5]).map (fun i => i - 2)).map (fun n => n + 2) = [(2 : ℤ)] ++ [5] ∧
        ([(11 : ℤ)].map (fun i => i - 2)).map (fun n => n + 2) = [(11 : ℤ)] ∧
        ((∀ r ∈ [(2 : ℤ)] ++ [5], 2 ≤ r ∧ r < 12) →
          ∀ n ∈ ([(2 : ℤ)] ++ [5]).map (fun i => i - 2), 0 ≤ n ∧ n < 10) ∧
        ((∀ r ∈ [(11 : ℤ)], 2 ≤ r ∧ r < 12) →
          ∀ n ∈ [(11 : ℤ)].map (fun i => i - 2), 0 ≤ n ∧ n < 10)) :=
  ⟨rfl, rfl, rfl,
   c3_normalization [['a', '\t', '2']] [['b', '\t', '5']] [['c', '\t', '1', '1']]
     [['a']] [['b']] [['c']] [2] [5] [11] rfl rfl rfl⟩

theorem stepCount_batchEvents : stepCount batchEvents = 1 := by decide

theorem stepCount_append (a b : List TrainEvent) :
    stepCount (a ++ b) = stepCount a + stepCount b :=
  List.countP_append _ a b

theorem trainFold_stepCount (upd : BERTBiLSTM → Batch → BERTBiLSTM) :
    ∀ (stream : List Batch) (st : TrainState),
      stepCount ((stream.foldl (batchStep upd) st).trace) =
        stepCount st.trace + stream.length := by
  intro stream
  induction stream with
  | nil => intro st; simp
  | cons bt rest ih =>
    intro st
    have h1 : stepCount ((batchStep upd st bt).trace) = stepCount st.trace + 1 := by
      simp [batchStep, stepCount_append, stepCount_batchEvents]
    simp only [List.foldl_cons, ih, h1, List.length_cons]
    omega

theorem trainEpoch_stepCount (upd : BERTBiLSTM → Batch → BERTBiLSTM)
    (stream : List Batch) (st : TrainState) :
    stepCount ((trainEpoch upd stream st).trace) = stepCount st.trace + stream.length :=
  trainFold_stepCount upd stream _

theorem trainLoop_stepCount (upd : BERTBiLSTM → Batch → BERTBiLSTM)
    (stream : List Batch) :
    ∀ (epochs : ℕ) (st : TrainState),
      stepCount ((trainLoop upd stream epochs st).trace) =
        stepCount st.trace + epochs * stream.length := by
  intro epochs
  induction epochs with
  | zero => intro st; simp [trainLoop]
  | succ n ih =>
    intro st
    simp only [trainLoop, ih, trainEpoch_stepCount]
    ring

/-- Claim C4: training for E epochs over a fixed batch stream performs,
per batch, the sequence zero_grad / forward / cross-entropy loss /
backward / exactly one optimizer step, so the recorded parameter-update
count is exactly E times the number of batches — and in particular never
exceeds it. -/
theorem c4_update_count (upd : BERTBiLSTM → Batch → BERTBiLSTM)
    (m : BERTBiLSTM) (stream : List Batch) (epochs : ℕ) (h : stream ≠ []) :
    stepCount (train upd m stream epochs).trace = epochs * stream.length ∧
      stepCount (train upd m stream epochs).trace ≤ epochs * stream.length := by
  have he : stepCount (train upd m stream epochs).trace = epochs * stream.length := by
    rw [train, trainLoop_stepCount]
    simp [stepCount]
  exact ⟨he, le_of_eq he⟩

/-- Claim C4 witness: four epochs over a one-batch stream perform exactly
4 = 4 × 1 optimizer steps. -/
theorem c4_update_count_witness :
    ([demoBatch] : List Batch) ≠ [] ∧
      (stepCount (train (fun m _ => m) demoModel [demoBatch] 4).trace = 4 * [demoBatch].length ∧
        stepCount (train (fun m _ => m) demoModel [demoBatch] 4).trace ≤ 4 * [demoBatch].length) :=
  ⟨by simp, c4_update_count (fun m _ => m) demoModel [demoBatch] 4 (by simp)⟩

theorem pooledRep_eq (m : BERTBiLSTM) (ids masks : List (List ℤ))
    (hf hb : List (List ℚ)) (hlstm : m.lstmHn (m.bertF ids masks) = [hf, hb]) :
    pooledRep m ids masks = List.zipWith (· ++ ·) hf hb := by
  simp [pooledRep, hlstm, negIdx]

/-- Claim C5: under the shape contracts of the collaborators — the
encoder/aggregator pipeline yields final hidden states [forward,
backward], each with B rows of size Hr, the linear head has 10 weight
rows and 10 biases (num_labels = 10), and the dropout mask covers the
batch — the forward pass returns logits of shape (B, 10) for every
B ≥ 1, and the pooled representation it builds by concatenating the two
final-direction states has exactly B rows of size 2·Hr. -/
theorem c5_forward_shape (m : BERTBiLSTM) (rng : List (List ℚ))
    (ids masks : List (List ℤ)) (B Hr : ℕ) (hB : 1 ≤ B)
    (hf hb : List (List ℚ))
    (hlstm : m.lstmHn (m.bertF ids masks) = [hf, hb])
    (hfl : hf.length = B) (hbl : hb.length = B)
    (hfr : ∀ r ∈ hf, r.length = Hr) (hbr : ∀ r ∈ hb, r.length = Hr)
    (hw : m.w.length = 10) (hbias : m.b.length = 10)
    (hrng : rng.length = B) :
    (forwardPass m rng ids masks).length = B ∧
      (∀ row ∈ forwardPass m rng ids masks, row.length = 10) ∧
      (pooledRep m ids masks).length = B ∧
      (∀ row ∈ pooledRep m ids masks, row.length = 2 * Hr) := by
  have hpool := pooledRep_eq m ids masks hf hb hlstm
  have hpl : (pooledRep m ids masks).length = B := by
    rw [hpool, List.length_zipWith, hfl, hbl, min_self]
  have hpr : ∀ row ∈ pooledRep m ids masks, row.length = 2 * Hr := by
    intro row hrow
    rw [hpool] at hrow
    obtain ⟨i, hi, he⟩ := List.mem_iff_getElem.mp hrow
    have hif : i < hf.length := by
      rw [List.length_zipWith] at hi
      omega
    have hib : i < hb.length := by
      rw [List.length_zipWith] at hi
      omega
    rw [List.getElem_zipWith] at he
    rw [← he, List.length_append, hfr _ (List.getElem_mem hif),
      hbr _ (List.getElem_mem hib)]
    ring
  have hdl : (dropoutRows m.mode rng (pooledRep m ids masks)).length = B := by
    cases hm : m.mode with
    | eval => simpa [dropoutRows] using hpl
    | train =>
      simp only [dropoutRows, List.length_zipWith, hrng, hpl, min_self]
  refine ⟨?_, ?_, hpl, hpr⟩
  · rw [forwardPass, List.length_map]
    exact hdl
  · intro row hrow
    rw [forwardPass] at hrow
    obtain ⟨x, _, hx⟩ := List.mem_map.mp hrow
    rw [← hx, linearRow, List.length_zipWith, hw, hbias, min_self]

/-- Claim C5 witness: the tiny concrete model (Hr = 1) on a singleton
batch, B = 1: the forward pass yields one ten-entry logit row and the
pooled representation is a single row of size 2. -/
theorem c5_forward_shape_witness :
    (forwardPass demoModel [[0, 0]] [[(0 : ℤ)]] [[(1 : ℤ)]]).length = 1 ∧
      (∀ row ∈ forwardPass demoModel [[0, 0]] [[(0 : ℤ)]] [[(1 : ℤ)]], row.length = 10) ∧
      (pooledRep demoModel [[(0 : ℤ)]] [[(1 : ℤ)]]).length = 1 ∧
      (∀ row ∈ pooledRep demoModel [[(0 : ℤ)]] [[(1 : ℤ)]], row.length = 2 * 1) :=
  c5_forward_shape demoModel [[0, 0]] [[(0 : ℤ)]] [[(1 : ℤ)]] 1 1 (by decide)
    [[0]] [[0]] rfl rfl rfl (by decide) (by decide) rfl rfl rfl

/-- Claim C8: the final-test report has the unstated precondition that
the distinct labels across collected true and predicted labels number
exactly 10 — the length of the fixed category-name list: the report step
of evaluate raises (ValueError) precisely when that count differs from
10, and produces its output otherwise. -/
theorem c8_report_precondition (m : BERTBiLSTM) (stream : List Batch) :
    (∃ e, (evaluate m stream).2.1 = Except.error e) ↔
      (distinctLabels (evalPredictions m stream).1
        (evalPredictions m stream).2).length ≠ 10 := by
  have hn : target_names.length = 10 := rfl
  by_cases hlen : (distinctLabels (evalPredictions m stream).1
      (evalPredictions m stream).2).length = 10
  · simp [evaluate, classification_report, hn, hlen]
  · simp [evaluate, classification_report, hn, hlen]

end IWC
